import Mathlib

/-!
Verification development for the fathom event-driven trading engine.

The Python sources are shallowly embedded: floating-point amounts are
modelled as exact rationals, Python ints as `Nat`/`Int`, Python dicts as
association lists whose keys are unique in every state reachable through
the modelled operations, and exceptions as `Except`.  Each definition
mirrors one function of the source; theorems settle the specification
claims against these definitions.
-/

namespace Fathom

/-! ## Dictionary model

Python `dict[str, α]` is modelled as an insertion-ordered association
list.  `dset` replaces the first binding of a key or appends a new one
(assignment), `dpop` removes the bindings of a key (`dict.pop`), and
`dlookup`/`dgetD` mirror `dict[k]`/`dict.get(k, default)`. -/

def dlookup {α : Type} (m : List (String × α)) (k : String) : Option α :=
  match m.find? (fun p => p.1 = k) with
  | some p => some p.2
  | none => none

def dgetD {α : Type} (m : List (String × α)) (k : String) (d : α) : α :=
  (dlookup m k).getD d

def dset {α : Type} (m : List (String × α)) (k : String) (v : α) :
    List (String × α) :=
  match m with
  | [] => [(k, v)]
  | p :: t => if p.1 = k then (k, v) :: t else p :: dset t k v

def dpop {α : Type} (m : List (String × α)) (k : String) : List (String × α) :=
  m.filter (fun p => ¬ p.1 = k)

def dcontains {α : Type} (m : List (String × α)) (k : String) : Bool :=
  (dlookup m k).isSome

@[simp] theorem dlookup_nil {α : Type} (k : String) :
    dlookup ([] : List (String × α)) k = none := rfl

@[simp] theorem dlookup_cons {α : Type} (p : String × α) (t : List (String × α))
    (k : String) :
    dlookup (p :: t) k = if p.1 = k then some p.2 else dlookup t k := by
  by_cases h : p.1 = k <;> simp [dlookup, List.find?_cons, h]

@[simp] theorem dset_nil {α : Type} (k : String) (v : α) :
    dset ([] : List (String × α)) k v = [(k, v)] := rfl

@[simp] theorem dset_cons {α : Type} (p : String × α) (t : List (String × α))
    (k : String) (v : α) :
    dset (p :: t) k v = if p.1 = k then (k, v) :: t else p :: dset t k v := rfl

@[simp] theorem dpop_nil {α : Type} (k : String) :
    dpop ([] : List (String × α)) k = [] := rfl

@[simp] theorem dpop_cons {α : Type} (p : String × α) (t : List (String × α))
    (k : String) :
    dpop (p :: t) k = if p.1 = k then dpop t k else p :: dpop t k := by
  by_cases h : p.1 = k <;> simp [dpop, List.filter_cons, h]

theorem dlookup_dpop_self {α : Type} (m : List (String × α)) (k : String) :
    dlookup (dpop m k) k = none := by
  induction m with
  | nil => rfl
  | cons p t ih =>
      by_cases h : p.1 = k
      · simpa [dpop, List.filter_cons, h] using ih
      · rw [dpop, List.filter_cons] at *
        simpa [h, dlookup_cons] using ih

theorem dlookup_dset_self {α : Type} (m : List (String × α)) (k : String) (v : α) :
    dlookup (dset m k v) k = some v := by
  induction m with
  | nil => simp [dset, dlookup_cons]
  | cons p t ih =>
      by_cases h : p.1 = k
      · simp [dset, h, dlookup_cons]
      · simpa [dset, h, dlookup_cons] using ih

/-! ## Graduation scoring (src/fathom/strategies/graduation_sniper.py)

The event record carries the fields read by `score_graduation`; the
repository treats every optional signal as `0.0` when unknown. -/

structure GraduationEvent where
  mint : String := ""
  symbol : String := ""
  pool_address : String := ""
  pool_type : String := ""
  sol_raised : ℚ := 0
  holder_count : ℕ := 0
  creator : String := ""
  initial_price_usd : ℚ := 0
  market_cap_usd : ℚ := 0
  liquidity_usd : ℚ := 0
  buys_1h : ℕ := 0
  sells_1h : ℕ := 0
  price_change_5m : ℚ := 0
  price_change_1h : ℚ := 0
  top10_concentration : ℚ := 0
  dev_holdings_pct : ℚ := 0
  sniper_count : ℕ := 0
  txns_24h : ℕ := 0
  deriving Repr, DecidableEq

structure ScoreBreakdown where
  momentum : ℤ := 0
  quality : ℤ := 0
  liquidity : ℤ := 0
  activity : ℤ := 0
  freshness : ℤ := 0
  total : ℤ := 0
  deriving Repr, DecidableEq

/-- Momentum component of `score_graduation`: buy/sell ratio over 1h plus
5m and 1h price-change bands. -/
def momentumScore (e : GraduationEvent) : ℤ :=
  let total_1h : ℕ := e.buys_1h + e.sells_1h
  let ratioPart : ℤ :=
    if total_1h > 0 then
      let buy_ratio : ℚ := (e.buys_1h : ℚ) / (total_1h : ℚ)
      if buy_ratio > 0.65 then 15
      else if buy_ratio > 0.55 then 8
      else if buy_ratio < 0.35 then -15
      else if buy_ratio < 0.45 then -5
      else 0
    else 0
  let change5m : ℤ :=
    if e.price_change_5m > 15 then 10
    else if e.price_change_5m > 0 then 3
    else if e.price_change_5m < -15 then -10
    else if e.price_change_5m < 0 then -3
    else 0
  let change1h : ℤ :=
    if e.price_change_1h > 50 then 5
    else if e.price_change_1h < -30 then -10
    else 0
  ratioPart + change5m + change1h

/-- On-chain quality component: top-10 concentration, dev holdings,
sniper count and holder count bands. -/
def qualityScore (e : GraduationEvent) : ℤ :=
  let top10 : ℤ :=
    if e.top10_concentration > 80 then -25
    else if e.top10_concentration > 50 then -10
    else if e.top10_concentration > 0 ∧ e.top10_concentration < 30 then 5
    else 0
  let dev : ℤ :=
    if e.dev_holdings_pct > 10 then -15
    else if e.dev_holdings_pct > 5 then -5
    else if e.dev_holdings_pct = 0 then 5
    else 0
  let snipers : ℤ :=
    if e.sniper_count > 50 then -10
    else if e.sniper_count > 20 then -5
    else if e.sniper_count < 5 then 3
    else 0
  let holders : ℤ :=
    if e.holder_count > 500 then 5
    else if e.holder_count < 50 ∧ e.holder_count > 0 then -5
    else 0
  top10 + dev + snipers + holders

/-- Market cap used by the scorer and the hard filters: the reported
market cap, with Python `or` falling back to `initial_price_usd * 1e9`
when the reported value is zero. -/
def effectiveMcap (e : GraduationEvent) : ℚ :=
  if e.market_cap_usd = 0 then e.initial_price_usd * 1000000000
  else e.market_cap_usd

/-- Liquidity-health component: mcap/liquidity ratio bands (with a flat
penalty when liquidity is zero) plus absolute liquidity bands. -/
def liquidityScore (e : GraduationEvent) : ℤ :=
  let mcap := effectiveMcap e
  let liq := e.liquidity_usd
  let ratioPart : ℤ :=
    if liq > 0 then
      let ratio := mcap / liq
      if ratio > 200 then -25
      else if ratio > 100 then -15
      else if ratio > 50 then -5
      else if ratio < 10 then 5
      else 0
    else -15
  let absPart : ℤ :=
    if liq < 3000 ∧ liq > 0 then -10
    else if liq > 50000 then 5
    else 0
  ratioPart + absPart

/-- Activity component: 24h transaction count bands. -/
def activityScore (e : GraduationEvent) : ℤ :=
  if e.txns_24h > 10000 then 10
  else if e.txns_24h > 5000 then 5
  else if e.txns_24h > 1000 then 2
  else if e.txns_24h < 200 ∧ e.txns_24h > 0 then -10
  else 0

/-- Multi-factor scoring model `score_graduation`: start at 50, add the
signed components, clamp the total into [0, 100]. -/
def score_graduation (e : GraduationEvent) : ScoreBreakdown :=
  let m := momentumScore e
  let q := qualityScore e
  let l := liquidityScore e
  let a := activityScore e
  let f : ℤ := 0
  let raw := 50 + m + q + l + a + f
  { momentum := m, quality := q, liquidity := l, activity := a,
    freshness := f, total := max 0 (min 100 raw) }

/-- Graduation event whose signal fields are all zero. -/
def zeroGraduationEvent : GraduationEvent := {}

/-- C1, counterexample.  The claim states that a graduation event with all
signal fields zero scores exactly the 50 baseline.  On the code it does
not: `dev_holdings_pct == 0` earns +5, `sniper_count < 5` earns +3, and
zero liquidity incurs the flat -15 penalty, so the total is 43. -/
theorem C1_counterexample :
    (score_graduation zeroGraduationEvent).total ≠ 50 := by decide

/-- C1, amended.  An all-zero graduation event scores 43, namely
50 + 0 (momentum) + 8 (quality: +5 for zero dev holdings, +3 for a sniper
count below 5) - 15 (zero liquidity) + 0 (activity): the zero-guard only
protects the momentum, top-10, holder-count, thin-liquidity and activity
bands, while zero dev holdings and zero snipers earn bonuses and zero
liquidity is penalised. -/
theorem C1_amended :
    score_graduation zeroGraduationEvent =
      { momentum := 0, quality := 8, liquidity := -15, activity := 0,
        freshness := 0, total := 43 } := by decide

/-! ## Constant-product AMM output
(src/src/adapters/pumpswap/adapter.py, `PumpSwapAdapter._calculate_output`)

Python integer arithmetic on non-negative ints is `Nat` arithmetic;
`//` is `Nat` division. -/

/-- Constant-product AMM output with the 25 bps PumpSwap fee, exactly as
`_calculate_output` computes it on Python ints. -/
def calculate_output (amount_in reserve_in reserve_out : ℕ) : ℕ :=
  let fee_bps : ℕ := 25
  let amount_after_fee := amount_in * (10000 - fee_bps) / 10000
  let numerator := amount_after_fee * reserve_out
  let denominator := reserve_in + amount_after_fee
  if denominator = 0 then 0 else numerator / denominator

/-- C3, counterexample.  The claim states `output(a, rin, rout) = 0` iff
`rin = 0 ∨ rout = 0` for positive `a`.  At `a = 10000, rin = 0,
rout = 1000` the code returns 1000, not 0, so the equivalence fails. -/
theorem C3_counterexample :
    ¬ (calculate_output 10000 0 1000 = 0 ↔ ((0 : ℕ) = 0 ∨ (1000 : ℕ) = 0)) := by
  decide

/-- C3, amended.  For positive input `a`, the integer-arithmetic output is
zero exactly when the denominator `rin + a'` is zero (the explicit guard,
with `a' = a·9975/10000` the fee-reduced input) or the numerator `a'·rout`
is smaller than that denominator.  In particular the output is zero
whenever `rout = 0`, it can be zero with both reserves positive (flooring,
e.g. `a = rin = rout = 1`), and it can be positive with `rin = 0`. -/
theorem C3_amended (a rin rout : ℕ) (ha : 0 < a) :
    calculate_output a rin rout = 0 ↔
      (rin + a * 9975 / 10000 = 0 ∨
        (a * 9975 / 10000) * rout < rin + a * 9975 / 10000) := by
  unfold calculate_output
  by_cases hd : rin + a * 9975 / 10000 = 0
  · simp only [hd]
    simp
  · simp only [hd]
    rw [if_neg (by simpa using hd)]
    rw [Nat.div_eq_zero_iff (Nat.pos_of_ne_zero hd)]
    simp [hd]

/-- C3, witness for the amended theorem: at `a = rin = rout = 1` the
fee floors the input to zero, the denominator guard fires, and the
output is zero. -/
theorem C3_amended_witness :
    0 < 1 ∧ (calculate_output 1 1 1 = 0 ↔
      ((1 : ℕ) + 1 * 9975 / 10000 = 0 ∨
        (1 * 9975 / 10000) * 1 < 1 + 1 * 9975 / 10000)) :=
  ⟨by decide, C3_amended 1 1 1 (by decide)⟩

/-! ## Exposure tracker (src/fathom/core/risk.py) -/

structure PositionRecord where
  token : String
  quantity : ℚ
  entry_price_usd : ℚ
  current_price_usd : ℚ
  sector : String
  deriving Repr, DecidableEq

/-- State of `ExposureTracker`: the private `_equity` field (cash, per the
spec: it decreases by cost on open and increases by proceeds on close)
plus the open positions keyed by token. -/
structure ExposureTracker where
  cash_equity : ℚ
  positions : List (String × PositionRecord)
  deriving Repr, DecidableEq

def ExposureTracker.init (equity : ℚ) : ExposureTracker :=
  { cash_equity := equity, positions := [] }

/-- Aggregate unrealised PnL, `ExposureTracker.total_unrealised_pnl`. -/
def ExposureTracker.total_unrealised_pnl (t : ExposureTracker) : ℚ :=
  (t.positions.map
    (fun p => p.2.quantity * (p.2.current_price_usd - p.2.entry_price_usd))).sum

/-- Displayed equity, the `ExposureTracker.equity` property:
`self._equity + self.total_unrealised_pnl`. -/
def ExposureTracker.equity (t : ExposureTracker) : ℚ :=
  t.cash_equity + t.total_unrealised_pnl

/-- Record a new position or blend into an existing one with a
quantity-weighted average entry; cash decreases by `quantity · price`
(`ExposureTracker.open_position`). -/
def ExposureTracker.open_position (t : ExposureTracker) (token : String)
    (quantity price_usd : ℚ) (sector : String := "memecoin") :
    ExposureTracker :=
  let positions :=
    match dlookup t.positions token with
    | some pos =>
        let total_qty := pos.quantity + quantity
        let avg_price :=
          if total_qty > 0 then
            (pos.entry_price_usd * pos.quantity + price_usd * quantity) /
              total_qty
          else price_usd
        dset t.positions token
          { token := token, quantity := total_qty,
            entry_price_usd := avg_price, current_price_usd := price_usd,
            sector := sector }
    | none =>
        dset t.positions token
          { token := token, quantity := quantity,
            entry_price_usd := price_usd, current_price_usd := price_usd,
            sector := sector }
  { cash_equity := t.cash_equity - quantity * price_usd,
    positions := positions }

/-- Close a position entirely, crediting proceeds to cash and returning
realised PnL (`ExposureTracker.close_position`). -/
def ExposureTracker.close_position (t : ExposureTracker) (token : String)
    (price_usd : ℚ) : ExposureTracker × ℚ :=
  match dlookup t.positions token with
  | none => (t, 0)
  | some pos =>
      let proceeds := pos.quantity * price_usd
      let cost := pos.quantity * pos.entry_price_usd
      ({ cash_equity := t.cash_equity + proceeds,
         positions := dpop t.positions token }, proceeds - cost)

/-- Mark a position to market (`ExposureTracker.update_price`). -/
def ExposureTracker.update_price (t : ExposureTracker) (token : String)
    (price_usd : ℚ) : ExposureTracker :=
  match dlookup t.positions token with
  | none => t
  | some pos =>
      let updated := { pos with current_price_usd := price_usd }
      { t with positions := dset t.positions token updated }

/-- Mark-to-market equity exactly as the spec words it: cash plus the sum
over open positions of quantity times current price. -/
def ExposureTracker.specMarkToMarketEquity (t : ExposureTracker) : ℚ :=
  t.cash_equity +
    (t.positions.map (fun p => p.2.quantity * p.2.current_price_usd)).sum

/-- C2.  The displayed `equity` property is cash plus unrealised PnL, not
cash plus mark-to-market value: after opening a single position of 100
tokens at price 1 from 10000 starting equity, the tracker displays 9900
while cash plus quantity times current price is 10000.  This contradicts
both the spec invariant and the property's own docstring, so the code is
at fault. -/
theorem C2_equity_not_mark_to_market :
    ((ExposureTracker.init 10000).open_position "TOK" 100 1).equity = 9900 ∧
    ((ExposureTracker.init 10000).open_position "TOK" 100
        1).specMarkToMarketEquity = 10000 ∧
    (9900 : ℚ) ≠ 10000 := by
  refine ⟨?_, ?_, by norm_num⟩ <;>
    simp [ExposureTracker.init, ExposureTracker.open_position,
      ExposureTracker.equity, ExposureTracker.total_unrealised_pnl,
      ExposureTracker.specMarkToMarketEquity] <;> norm_num

/-! ## Event bus (src/fathom/core/events.py)

Handlers are modelled by an identifier plus a failure predicate: invoking
a handler either returns normally or raises, which is all `publish`
observes.  The bus state records the trace of handler invocations so that
ordering and isolation are provable. -/

inductive EventType where
  | PRICE_UPDATE
  | TRADE
  | ORDERBOOK_UPDATE
  | LIQUIDITY_UPDATE
  | ORDER_SUBMITTED
  | ORDER_ACCEPTED
  | ORDER_FILLED
  | ORDER_PARTIALLY_FILLED
  | ORDER_REJECTED
  | ORDER_CANCELLED
  | SIGNAL
  | ENGINE_START
  | ENGINE_STOP
  | ADAPTER_CONNECTED
  | ADAPTER_DISCONNECTED
  | HEARTBEAT
  | ERROR
  deriving Repr, DecidableEq

structure BusEvent where
  event_type : EventType
  tag : ℕ := 0
  deriving Repr, DecidableEq

structure Handler where
  hid : ℕ
  failsOn : BusEvent → Bool

structure BusState where
  handlers : EventType → List Handler
  event_count : ℕ := 0
  error_count : ℕ := 0
  calls : List (ℕ × BusEvent) := []

/-- Error event constructed by `publish` for a failing handler
(`Event(event_type=ERROR, source=..., data=...)`); the tag carries the
failing handler's identity. -/
def errorEvent (h : Handler) (_e : BusEvent) : BusEvent :=
  { event_type := EventType.ERROR, tag := h.hid }

/-- Register a handler for an event type (`EventBus.subscribe`). -/
def subscribeBus (s : BusState) (et : EventType) (h : Handler) : BusState :=
  { s with handlers := fun k => if k = et then s.handlers k ++ [h] else s.handlers k }

/-- Invocation step of `publish` on the recursive (error) level: record
the call; count the error on failure, but never re-publish. -/
def invokeInner (e : BusEvent) (s : BusState) (h : Handler) : BusState :=
  let s1 := { s with calls := s.calls ++ [(h.hid, e)] }
  if h.failsOn e then { s1 with error_count := s1.error_count + 1 } else s1

/-- Dispatch of `publish` specialised to events that cannot trigger a
re-publish; `publish` on an ERROR event behaves exactly like this
(`publish_error_eq_inner` below). -/
def publishInner (s : BusState) (e : BusEvent) : BusState :=
  (s.handlers e.event_type).foldl (invokeInner e)
    { s with event_count := s.event_count + 1 }

/-- Invocation step of `publish` at top level: record the call; on
failure count the error and, unless the event being handled already has
kind ERROR, publish an error event through the same bus. -/
def invoke (e : BusEvent) (s : BusState) (h : Handler) : BusState :=
  let s1 := { s with calls := s.calls ++ [(h.hid, e)] }
  if h.failsOn e then
    let s2 := { s1 with error_count := s1.error_count + 1 }
    if e.event_type = EventType.ERROR then s2
    else publishInner s2 (errorEvent h e)
  else s1

/-- Dispatch an event to all handlers subscribed to its kind, in
subscription order (`EventBus.publish`). -/
def publish (s : BusState) (e : BusEvent) : BusState :=
  (s.handlers e.event_type).foldl (invoke e)
    { s with event_count := s.event_count + 1 }

/-- Calls generated by one top-level handler invocation: the handler
itself, then (on failure of a non-error event) every ERROR subscriber
invoked with the generated error event. -/
def handlerCalls (H : EventType → List Handler) (e : BusEvent) (h : Handler) :
    List (ℕ × BusEvent) :=
  (h.hid, e) ::
    (if h.failsOn e ∧ e.event_type ≠ EventType.ERROR then
      (H EventType.ERROR).map (fun g => (g.hid, errorEvent h e))
    else [])

/-- Failures counted during one top-level handler invocation: the
handler's own failure plus, when an error event is re-published, the
failures of the ERROR subscribers on that error event. -/
def handlerErrors (H : EventType → List Handler) (e : BusEvent) (h : Handler) :
    ℕ :=
  if h.failsOn e then
    1 + (if e.event_type = EventType.ERROR then 0
         else (H EventType.ERROR).countP (fun g => g.failsOn (errorEvent h e)))
  else 0

/-- Number of error events a top-level handler invocation publishes:
one per failure, except while handling an event of kind ERROR. -/
def handlerPublishes (e : BusEvent) (h : Handler) : ℕ :=
  if h.failsOn e ∧ e.event_type ≠ EventType.ERROR then 1 else 0

theorem foldl_invokeInner_spec (e : BusEvent) (l : List Handler) (a : BusState) :
    l.foldl (invokeInner e) a =
      { handlers := a.handlers,
        event_count := a.event_count,
        calls := a.calls ++ l.map (fun h => (h.hid, e)),
        error_count := a.error_count + l.countP (fun h => h.failsOn e) } := by
  induction l generalizing a with
  | nil => simp
  | cons h t ih =>
      rw [List.foldl_cons, ih]
      by_cases hf : h.failsOn e <;>
        simp [invokeInner, hf, List.countP_cons, Nat.add_comm, Nat.add_assoc,
          Nat.add_left_comm]

theorem publishInner_spec (s : BusState) (e : BusEvent) :
    publishInner s e =
      { handlers := s.handlers,
        event_count := s.event_count + 1,
        calls := s.calls ++
          (s.handlers e.event_type).map (fun h => (h.hid, e)),
        error_count := s.error_count +
          (s.handlers e.event_type).countP (fun h => h.failsOn e) } := by
  rw [publishInner, foldl_invokeInner_spec]

theorem foldl_invoke_spec (e : BusEvent) (l : List Handler) (a : BusState) :
    l.foldl (invoke e) a =
      { handlers := a.handlers,
        event_count := a.event_count +
          (l.map (handlerPublishes e)).sum,
        calls := a.calls ++ l.flatMap (handlerCalls a.handlers e),
        error_count := a.error_count +
          (l.map (handlerErrors a.handlers e)).sum } := by
  induction l generalizing a with
  | nil => simp
  | cons h t ih =>
      rw [List.foldl_cons, ih]
      by_cases hf : h.failsOn e
      · by_cases he : e.event_type = EventType.ERROR
        · simp [invoke, hf, he, handlerCalls, handlerErrors, handlerPublishes,
            Nat.add_comm, Nat.add_assoc, Nat.add_left_comm]
        · simp [invoke, hf, he, publishInner_spec, handlerCalls, handlerErrors,
            handlerPublishes, errorEvent, Nat.add_comm, Nat.add_assoc,
            Nat.add_left_comm]
      · simp [invoke, hf, handlerCalls, handlerErrors, handlerPublishes,
          Nat.add_comm, Nat.add_assoc, Nat.add_left_comm]

theorem publish_spec (s : BusState) (e : BusEvent) :
    publish s e =
      { handlers := s.handlers,
        event_count := s.event_count + 1 +
          ((s.handlers e.event_type).map (handlerPublishes e)).sum,
        calls := s.calls ++
          (s.handlers e.event_type).flatMap (handlerCalls s.handlers e),
        error_count := s.error_count +
          ((s.handlers e.event_type).map (handlerErrors s.handlers e)).sum } := by
  rw [publish, foldl_invoke_spec]

/-- Sanity: on an event of kind ERROR, `publish` coincides with the
never-re-publishing dispatch, i.e. the code's recursion guard holds. -/
theorem publish_error_eq_inner (s : BusState) (e : BusEvent)
    (he : e.event_type = EventType.ERROR) :
    publish s e = publishInner s e := by
  rw [publish_spec, publishInner_spec]
  have hcalls : ∀ l : List Handler,
      l.flatMap (handlerCalls s.handlers e) = l.map (fun h => (h.hid, e)) := by
    intro l
    induction l with
    | nil => rfl
    | cons h t ih => simp [handlerCalls, he, ih]
  have herr : ∀ l : List Handler,
      (l.map (handlerErrors s.handlers e)).sum =
        l.countP (fun h => h.failsOn e) := by
    intro l
    induction l with
    | nil => rfl
    | cons h t ih =>
        by_cases hf : h.failsOn e <;>
          simp [handlerErrors, he, hf, ih, List.countP_cons, Nat.add_comm]
  have hpub : ∀ l : List Handler,
      (l.map (handlerPublishes e)).sum = 0 := by
    intro l
    induction l with
    | nil => rfl
    | cons h t ih => simp [handlerPublishes, he, ih]
  rw [hcalls, herr, hpub]

theorem handlerCalls_filter_kind (H : EventType → List Handler) (e : BusEvent)
    (h : Handler) :
    (handlerCalls H e h).filter (fun c => c.2.event_type = e.event_type) =
      [(h.hid, e)] := by
  by_cases hf : h.failsOn e ∧ e.event_type ≠ EventType.ERROR
  · simp only [handlerCalls, if_pos hf, List.filter_cons]
    have : ∀ g : Handler,
        (errorEvent h e).event_type = e.event_type ↔ False := by
      intro g
      simp [errorEvent]
      exact fun hh => hf.2 hh.symm
    simp [errorEvent, List.filter_map]
    intro x hx
    exact fun hh => hf.2 hh.symm
  · simp [handlerCalls, if_neg hf, List.filter_cons]

/-- C6.  For every publish: (i) the dispatch appends exactly the calls of
`handlerCalls` to the trace, and restricting that suffix to the published
event's own kind shows every subscribed handler runs exactly once with
the event, in subscription order, failures notwithstanding; (ii) the
error count grows by exactly one per failing invocation, including
failures of ERROR subscribers on re-published error events; (iii) exactly
one error event is published per failure via the same bus; and (iv) when
the event being handled already has kind ERROR, no error event is
re-published at all. -/
theorem C6_publish_isolation (s : BusState) (e : BusEvent) :
    ((publish s e).calls = s.calls ++
        (s.handlers e.event_type).flatMap (handlerCalls s.handlers e)) ∧
    (((s.handlers e.event_type).flatMap (handlerCalls s.handlers e)).filter
        (fun c => c.2.event_type = e.event_type) =
      (s.handlers e.event_type).map (fun h => (h.hid, e))) ∧
    ((publish s e).error_count = s.error_count +
        ((s.handlers e.event_type).map (handlerErrors s.handlers e)).sum) ∧
    ((publish s e).event_count = s.event_count + 1 +
        ((s.handlers e.event_type).map (handlerPublishes e)).sum) ∧
    (e.event_type = EventType.ERROR →
      (publish s e).event_count = s.event_count + 1) := by
  refine ⟨by rw [publish_spec], ?_, by rw [publish_spec], by rw [publish_spec], ?_⟩
  · induction s.handlers e.event_type with
    | nil => simp
    | cons h t ih =>
        simp only [List.flatMap_cons, List.map_cons, List.filter_append,
          handlerCalls_filter_kind]
        rw [ih]
        rfl
  · intro he
    rw [publish_spec]
    have : ∀ h ∈ s.handlers e.event_type, handlerPublishes e h = 0 := by
      intro h _
      simp [handlerPublishes, he]
    simp only [List.map_eq_map, List.sum_eq_zero_iff]
    have hz : ((s.handlers e.event_type).map (handlerPublishes e)).sum = 0 := by
      apply List.sum_eq_zero
      intro x hx
      obtain ⟨h, hh, rfl⟩ := List.mem_map.mp hx
      exact this h hh
    omega

/-- Bus with one ERROR subscriber, used to witness the claim theorems. -/
def busExample : BusState :=
  { handlers := fun k =>
      if k = EventType.ERROR then [{ hid := 7, failsOn := fun _ => false }]
      else [],
    event_count := 5 }

/-- C6, witness: publishing a concrete ERROR event increments the event
count by exactly one, i.e. no error event is re-published. -/
theorem C6_publish_isolation_witness :
    (({ event_type := EventType.ERROR, tag := 3 } : BusEvent).event_type =
        EventType.ERROR) ∧
    (publish busExample { event_type := EventType.ERROR, tag := 3 }).event_count =
      busExample.event_count + 1 :=
  ⟨rfl, (C6_publish_isolation busExample
    { event_type := EventType.ERROR, tag := 3 }).2.2.2.2 rfl⟩

/-! ## Order fills and VWAP (src/fathom/core/orders.py)

Only the fields `record_fill` touches are modelled; a fill is the pair
of its price and quantity. -/

inductive OrderStatus where
  | PENDING
  | SUBMITTED
  | ACCEPTED
  | PARTIALLY_FILLED
  | FILLED
  | CANCELLED
  | REJECTED
  | EXPIRED
  deriving Repr, DecidableEq

structure Order where
  quantity : ℚ
  status : OrderStatus := OrderStatus.PENDING
  filled_quantity : ℚ := 0
  avg_fill_price : ℚ := 0
  fills : List (ℚ × ℚ) := []
  deriving Repr, DecidableEq

/-- Record a fill against an order (`Order.record_fill`): append the
fill, add its quantity, update the VWAP by
`(prev_avg·prev_filled + price·qty) / (prev_filled + qty)` when the new
filled quantity is positive, and recompute the status. -/
def Order.record_fill (o : Order) (price quantity : ℚ) : Order :=
  let prev_notional := o.avg_fill_price * o.filled_quantity
  let filled := o.filled_quantity + quantity
  let avg :=
    if filled > 0 then (prev_notional + price * quantity) / filled
    else o.avg_fill_price
  { o with
    filled_quantity := filled,
    avg_fill_price := avg,
    fills := o.fills ++ [(price, quantity)],
    status :=
      if filled ≥ o.quantity then OrderStatus.FILLED
      else OrderStatus.PARTIALLY_FILLED }

/-- Notional value of a list of fills: the sum of price times quantity. -/
def fillNotional (fills : List (ℚ × ℚ)) : ℚ :=
  (fills.map (fun f => f.1 * f.2)).sum

/-- VWAP bookkeeping invariant of an order. -/
def vwapInv (o : Order) : Prop :=
  0 ≤ o.filled_quantity ∧
    o.avg_fill_price * o.filled_quantity = fillNotional o.fills

theorem record_fill_vwapInv {o : Order} {p q : ℚ} (h : vwapInv o)
    (hq : 0 < q) : vwapInv (o.record_fill p q) := by
  obtain ⟨h0, hinv⟩ := h
  have hpos : 0 < o.filled_quantity + q := by linarith
  constructor
  · simpa [Order.record_fill] using le_of_lt hpos
  · simp only [Order.record_fill, if_pos hpos, fillNotional, List.map_append,
      List.sum_append, List.map_cons, List.sum_cons, List.map_nil,
      List.sum_nil]
    rw [div_mul_cancel₀ _ (ne_of_gt hpos), hinv]
    simp [fillNotional]

theorem foldl_record_fill_vwapInv (l : List (ℚ × ℚ)) :
    ∀ o : Order, vwapInv o → (∀ f ∈ l, 0 < f.2) →
      vwapInv (l.foldl (fun o f => o.record_fill f.1 f.2) o) := by
  induction l with
  | nil => intro o h _; simpa using h
  | cons f t ih =>
      intro o h hpos
      rw [List.foldl_cons]
      exact ih _ (record_fill_vwapInv h (hpos f (by simp)))
        (fun g hg => hpos g (by simp [hg]))

/-- Fresh order as produced by the factory methods: nothing filled yet. -/
def freshOrder (quantity : ℚ) : Order := { quantity := quantity }

/-- C7.  For every order and every sequence of fills of positive quantity
(`try_fill` only ever records positive quantities), after each fill the
volume-weighted average satisfies
`avg_fill_price · filled_quantity = Σ fill_price · fill_quantity`; the
per-fill update is exactly the modelled
`(prev_avg·prev_filled + price·qty) / (prev_filled + qty)`.  Exact
rational arithmetic stands in for floating point. -/
theorem C7_vwap_invariant (quantity : ℚ) (l : List (ℚ × ℚ))
    (hpos : ∀ f ∈ l, 0 < f.2) :
    vwapInv (l.foldl (fun o f => o.record_fill f.1 f.2)
      (freshOrder quantity)) :=
  foldl_record_fill_vwapInv l (freshOrder quantity)
    (by constructor <;> simp [freshOrder, fillNotional]) hpos

/-- C7, witness: two fills of quantity 2 at prices 10 and 20 satisfy the
VWAP identity. -/
theorem C7_vwap_invariant_witness :
    (∀ f ∈ [((10 : ℚ), (2 : ℚ)), (20, 2)], 0 < f.2) ∧
    vwapInv ([((10 : ℚ), (2 : ℚ)), (20, 2)].foldl
      (fun o f => o.record_fill f.1 f.2) (freshOrder 4)) :=
  ⟨by decide, C7_vwap_invariant 4 [(10, 2), (20, 2)] (by decide)⟩

/-! ## Paper adapter (src/fathom/adapters/paper.py)

An order-intent dict carries `side`, `token`, `amount_usd` and `amount`;
absent keys read through `.get` as the defaults modelled here. -/

structure PaperOrder where
  side : String := "buy"
  token : String := ""
  amount_usd : ℚ := 0
  amount : ℚ := 0
  deriving Repr, DecidableEq

structure PaperState where
  initial_balance_usd : ℚ
  balance_usd : ℚ
  positions : List (String × ℚ) := []
  entry_prices : List (String × ℚ) := []
  last_prices : List (String × ℚ) := []
  fill_count : ℕ := 0
  total_volume : ℚ := 0
  deriving Repr, DecidableEq

def PaperState.init (initial : ℚ) : PaperState :=
  { initial_balance_usd := initial, balance_usd := initial }

/-- Record the latest observed price for a token
(`PaperAdapter._track_price`, which ignores non-positive prices). -/
def PaperState.track_price (s : PaperState) (token : String) (price : ℚ) :
    PaperState :=
  if price > 0 then { s with last_prices := dset s.last_prices token price }
  else s

/-- Seed a price directly (`PaperAdapter.set_price`). -/
def PaperState.set_price (s : PaperState) (token : String) (price : ℚ) :
    PaperState :=
  { s with last_prices := dset s.last_prices token price }

/-- Synchronous fill of an order intent (`PaperAdapter._sync_fill`).  A
buy exceeding the balance publishes a rejection and leaves the ledger
unchanged; a sell clips the requested amount to the held quantity,
selling everything held when the requested amount is not positive. -/
def PaperState.sync_fill (s : PaperState) (order : PaperOrder) : PaperState :=
  let token := order.token
  let amount_usd := order.amount_usd
  let price := dgetD s.last_prices token 0
  if order.side = "buy" then
    if amount_usd > s.balance_usd then s
    else
      let tokens := if price > 0 then amount_usd / price else amount_usd
      { s with
        balance_usd := s.balance_usd - amount_usd,
        positions := dset s.positions token (dgetD s.positions token 0 + tokens),
        entry_prices := dset s.entry_prices token (if price > 0 then price else 1),
        total_volume := s.total_volume + amount_usd,
        fill_count := s.fill_count + 1 }
  else if order.side = "sell" then
    let held := dgetD s.positions token 0
    let amount_tokens := order.amount
    let sell_amount := if amount_tokens > 0 then min amount_tokens held else held
    let proceeds := if price > 0 then sell_amount * price else 0
    let positions1 := dset s.positions token (held - sell_amount)
    let positions2 :=
      if held - sell_amount ≤ 0 then dpop positions1 token else positions1
    { s with
      balance_usd := s.balance_usd + proceeds,
      positions := positions2,
      total_volume := s.total_volume + proceeds,
      fill_count := s.fill_count + 1 }
  else s

/-- C9.  A sell intent whose requested token amount is zero (or omitted,
which reads as zero) sells the entire held quantity: the position is
removed outright and the balance is credited with the full holding at
the last observed price (zero proceeds when no price is known). -/
theorem C9_sell_all_on_zero_amount (s : PaperState) (token : String) :
    let s' := s.sync_fill { side := "sell", token := token }
    dlookup s'.positions token = none ∧
    s'.balance_usd = s.balance_usd +
      (if dgetD s.last_prices token 0 > 0 then
        dgetD s.positions token 0 * dgetD s.last_prices token 0
      else 0) := by
  intro s'
  have hside : ("sell" : String) = "buy" ↔ False := by simp
  constructor
  · show dlookup (PaperState.sync_fill s { side := "sell", token := token }).positions
      token = none
    simp only [PaperState.sync_fill]
    simp [dlookup_dpop_self]
  · show (PaperState.sync_fill s { side := "sell", token := token }).balance_usd =
      _
    simp only [PaperState.sync_fill]
    simp

/-! ## Trade journal (src/fathom/core/metrics.py) -/

structure TradeRecord where
  token : String
  side : String
  price : ℚ
  quantity : ℚ
  notional_usd : ℚ
  timestamp_s : ℚ
  strategy : String := ""
  fees_usd : ℚ := 0
  deriving Repr, DecidableEq

structure RoundTrip where
  token : String
  entry_price : ℚ
  exit_price : ℚ
  quantity : ℚ
  pnl_usd : ℚ
  pnl_pct : ℚ
  hold_seconds : ℚ
  entry_time : ℚ
  exit_time : ℚ
  deriving Repr, DecidableEq

structure TradeJournal where
  initial_equity : ℚ
  trades : List TradeRecord := []
  round_trips : List RoundTrip := []
  open_buys : List (String × List TradeRecord) := []
  equity_curve : List ℚ
  current_equity : ℚ
  deriving Repr, DecidableEq

def TradeJournal.init (initial_equity : ℚ) : TradeJournal :=
  { initial_equity := initial_equity, equity_curve := [initial_equity],
    current_equity := initial_equity }

/-- PnL of a round trip as `_match_round_trip` computes it. -/
def roundTripPnl (buy sell : TradeRecord) : ℚ :=
  min buy.quantity sell.quantity * (sell.price - buy.price) -
    buy.fees_usd - sell.fees_usd

/-- RoundTrip built by `_match_round_trip` from the oldest open buy and
the incoming sell. -/
def mkRoundTrip (buy sell : TradeRecord) : RoundTrip :=
  { token := sell.token,
    entry_price := buy.price,
    exit_price := sell.price,
    quantity := min buy.quantity sell.quantity,
    pnl_usd := roundTripPnl buy sell,
    pnl_pct :=
      if buy.price > 0 then (sell.price - buy.price) / buy.price else 0,
    hold_seconds := sell.timestamp_s - buy.timestamp_s,
    entry_time := buy.timestamp_s,
    exit_time := sell.timestamp_s }

/-- FIFO matching of a sell against the open buys
(`TradeJournal._match_round_trip`): with no open buys the sell is
dropped; otherwise the single oldest buy is popped in full and one
round trip is appended together with one equity-curve point. -/
def TradeJournal.match_round_trip (j : TradeJournal) (sell : TradeRecord) :
    TradeJournal :=
  match dgetD j.open_buys sell.token [] with
  | [] => j
  | buy :: rest =>
      let pnl := roundTripPnl buy sell
      { j with
        open_buys := dset j.open_buys sell.token rest,
        round_trips := j.round_trips ++ [mkRoundTrip buy sell],
        current_equity := j.current_equity + pnl,
        equity_curve := j.equity_curve ++ [j.current_equity + pnl] }

/-- Record a fill (`TradeJournal.record`): append the trade; a buy joins
the token's open-buy queue, a sell attempts a round-trip match.  The
`now` argument stands for `time.time()`, used only when the caller
passes a non-positive timestamp. -/
def TradeJournal.record (j : TradeJournal) (token side : String)
    (price quantity : ℚ) (timestamp_s : ℚ) (now : ℚ)
    (strategy : String := "") (fees_usd : ℚ := 0) : TradeJournal :=
  let ts := if timestamp_s ≤ 0 then now else timestamp_s
  let tr : TradeRecord :=
    { token := token, side := side, price := price, quantity := quantity,
      notional_usd := price * quantity, timestamp_s := ts,
      strategy := strategy, fees_usd := fees_usd }
  let j1 := { j with trades := j.trades ++ [tr] }
  if side = "buy" then
    let newBuys := dgetD j1.open_buys token [] ++ [tr]
    { j1 with open_buys := dset j1.open_buys token newBuys }
  else if side = "sell" then j1.match_round_trip tr
  else j1

/-- Sell record built by `record` for a sell fill. -/
def mkSellRecord (token : String) (price quantity timestamp_s now : ℚ)
    (strategy : String := "") (fees_usd : ℚ := 0) : TradeRecord :=
  { token := token, side := "sell", price := price, quantity := quantity,
    notional_usd := price * quantity,
    timestamp_s := if timestamp_s ≤ 0 then now else timestamp_s,
    strategy := strategy, fees_usd := fees_usd }

/-- C10.  Recording a sell produces at most one round trip: with no open
buys for the token, nothing beyond the trade log changes (no round trip,
equity curve untouched); otherwise exactly the single oldest open buy is
removed in full, one round trip of quantity `min(buy qty, sell qty)` is
appended, and one equity point is added — any unmatched remainder of the
buy or the sell is retained nowhere, so it can never match later. -/
theorem C10_sell_matches_at_most_one (j : TradeJournal) (token : String)
    (price quantity timestamp_s now strategy fees_usd) :
    let tr := mkSellRecord token price quantity timestamp_s now strategy
      fees_usd
    let j' := j.record token "sell" price quantity timestamp_s now strategy
      fees_usd
    (dgetD j.open_buys token [] = [] →
      j'.round_trips = j.round_trips ∧
      j'.equity_curve = j.equity_curve ∧
      j'.open_buys = j.open_buys ∧
      j'.trades = j.trades ++ [tr]) ∧
    (∀ buy rest, dgetD j.open_buys token [] = buy :: rest →
      j'.round_trips = j.round_trips ++ [mkRoundTrip buy tr] ∧
      (mkRoundTrip buy tr).quantity = min buy.quantity tr.quantity ∧
      dgetD j'.open_buys token [] = rest ∧
      j'.equity_curve =
        j.equity_curve ++ [j.current_equity + roundTripPnl buy tr] ∧
      j'.trades = j.trades ++ [tr]) := by
  intro tr j'
  have hrec : j' = ({ j with trades := j.trades ++ [tr] }
      : TradeJournal).match_round_trip tr := by
    show TradeJournal.record j token "sell" price quantity timestamp_s now
        strategy fees_usd = _
    simp [TradeJournal.record, mkSellRecord, tr]
  constructor
  · intro hempty
    rw [hrec]
    simp only [TradeJournal.match_round_trip]
    rw [show dgetD ({ j with trades := j.trades ++ [tr] }
        : TradeJournal).open_buys tr.token [] = [] from by
      simpa [mkSellRecord, tr] using hempty]
    refine ⟨rfl, rfl, rfl, rfl⟩
  · intro buy rest hcons
    rw [hrec]
    simp only [TradeJournal.match_round_trip]
    rw [show dgetD ({ j with trades := j.trades ++ [tr] }
        : TradeJournal).open_buys tr.token [] = buy :: rest from by
      simpa [mkSellRecord, tr] using hcons]
    refine ⟨rfl, rfl, ?_, rfl, rfl⟩
    show dgetD (dset j.open_buys tr.token rest) tr.token [] = rest
    simp [dgetD, dlookup_dset_self]

/-- Journal with a single open buy, used to witness C10. -/
def journalExample : TradeJournal :=
  (TradeJournal.init 1000).record "TOK" "buy" 2 5 10 10

/-- C10, witness: a sell of 3 tokens against the single open buy of 5
produces exactly one round trip and clears the open-buy queue. -/
theorem C10_sell_matches_at_most_one_witness :
    (journalExample.record "TOK" "sell" 4 3 20 20 "" 0).round_trips.length =
        journalExample.round_trips.length + 1 ∧
    dgetD (journalExample.record "TOK" "sell" 4 3 20 20 "" 0).open_buys
      "TOK" [] = [] := by
  have hbuys : dgetD journalExample.open_buys "TOK" [] =
      ({ token := "TOK", side := "buy", price := 2, quantity := 5,
         notional_usd := 2 * 5, timestamp_s := 10, strategy := "",
         fees_usd := 0 } : TradeRecord) :: [] := by
    norm_num [journalExample, TradeJournal.record, TradeJournal.init, dgetD,
      dlookup_dset_self]
  have h := (C10_sell_matches_at_most_one journalExample "TOK" 4 3 20 20 ""
    0).2 _ [] hbuys
  exact ⟨by rw [h.1]; simp, h.2.2.1⟩

/-! ## Graduation sniper strategy (src/fathom/strategies/graduation_sniper.py)

The strategy's mutable state is threaded explicitly; published order
intents and the booked exits are recorded in the state so that theorems
can observe them.  The wall clock `time.time_ns()` becomes an explicit
`now` argument in nanoseconds. -/

structure SniperConfig where
  base_position_usd : ℚ := 50
  max_positions : ℕ := 5
  min_score : ℤ := 60
  take_profit_pct : ℚ := 0.50
  stop_loss_pct : ℚ := 0.20
  trailing_stop_pct : ℚ := 0.15
  trailing_activate_pct : ℚ := 0.30
  max_hold_seconds : ℚ := 600
  exit_on_dev_sell : Bool := true
  min_liquidity : ℚ := 3000
  max_mcap_liq_ratio : ℚ := 200
  max_top10_concentration : ℚ := 90
  deriving Repr, DecidableEq

structure SniperPosition where
  mint : String
  symbol : String
  entry_price : ℚ
  amount_usd : ℚ
  amount_tokens : ℚ
  entered_at_ns : ℤ
  score : ℤ := 0
  highest_price : ℚ := 0
  deriving Repr, DecidableEq

inductive ExitReason where
  | take_profit
  | stop_loss
  | trailing_stop
  | timeout
  | dev_sell
  deriving Repr, DecidableEq

structure ExitCounts where
  take_profit : ℕ := 0
  stop_loss : ℕ := 0
  trailing_stop : ℕ := 0
  timeout : ℕ := 0
  dev_sell : ℕ := 0
  deriving Repr, DecidableEq

def ExitCounts.bump (c : ExitCounts) : ExitReason → ExitCounts
  | ExitReason.take_profit => { c with take_profit := c.take_profit + 1 }
  | ExitReason.stop_loss => { c with stop_loss := c.stop_loss + 1 }
  | ExitReason.trailing_stop => { c with trailing_stop := c.trailing_stop + 1 }
  | ExitReason.timeout => { c with timeout := c.timeout + 1 }
  | ExitReason.dev_sell => { c with dev_sell := c.dev_sell + 1 }

/-- Order intent published through `Strategy.buy` / `Strategy.sell`. -/
structure OrderIntent where
  side : String
  token : String
  amount_usd : ℚ := 0
  amount : ℚ := 0
  slippage_bps : ℕ := 50
  deriving Repr, DecidableEq

/-- Booked exit, recording the price handed to `_exit`. -/
structure ExitRecord where
  mint : String
  price : ℚ
  reason : ExitReason
  deriving Repr, DecidableEq

structure SniperState where
  positions : List (String × SniperPosition) := []
  passed : ℕ := 0
  filtered : ℕ := 0
  scores : List ℤ := []
  exits : ExitCounts := {}
  pnl : ℚ := 0
  orders : List OrderIntent := []
  exit_log : List ExitRecord := []
  deriving Repr, DecidableEq

/-- Close a position (`GraduationSniper._exit`): book realised PnL at
the handed-in price, bump the per-reason exit counter, publish a sell
for the full token amount and drop the position. -/
def sniperExit (s : SniperState) (pos : SniperPosition) (price : ℚ)
    (reason : ExitReason) : SniperState :=
  { s with
    pnl := s.pnl + pos.amount_tokens * (price - pos.entry_price),
    exits := s.exits.bump reason,
    orders := s.orders ++
      [{ side := "sell", token := pos.mint, amount := pos.amount_tokens,
         slippage_bps := 500 }],
    exit_log := s.exit_log ++
      [{ mint := pos.mint, price := price, reason := reason }],
    positions := dpop s.positions pos.mint }

/-- Position age in seconds (`Position.age_seconds`), reading the wall
clock `now` in nanoseconds. -/
def ageSeconds (now : ℤ) (pos : SniperPosition) : ℚ :=
  ((now - pos.entered_at_ns : ℤ) : ℚ) / 1000000000

/-- Per-position exit state machine
(`GraduationSniper.on_price_update`). -/
def onPriceUpdate (cfg : SniperConfig) (now : ℤ) (s : SniperState)
    (token : String) (price : ℚ) : SniperState :=
  match dlookup s.positions token with
  | none => s
  | some pos0 =>
      if price ≤ 0 then s
      else
        let pos :=
          if price > pos0.highest_price then
            { pos0 with highest_price := price }
          else pos0
        let s1 := { s with positions := dset s.positions token pos }
        let pnl_pct := (price - pos.entry_price) / pos.entry_price
        let drawdown_from_high :=
          if pos.highest_price > 0 then
            (pos.highest_price - price) / pos.highest_price
          else 0
        if pnl_pct ≥ cfg.take_profit_pct then
          sniperExit s1 pos price ExitReason.take_profit
        else if pnl_pct ≤ -cfg.stop_loss_pct then
          sniperExit s1 pos price ExitReason.stop_loss
        else
          let peak_pnl := (pos.highest_price - pos.entry_price) / pos.entry_price
          if peak_pnl ≥ cfg.trailing_activate_pct ∧
              drawdown_from_high ≥ cfg.trailing_stop_pct then
            sniperExit s1 pos price ExitReason.trailing_stop
          else if ageSeconds now pos ≥ cfg.max_hold_seconds then
            sniperExit s1 pos price ExitReason.timeout
          else s1

/-- Dev-wallet activity handler (`GraduationSniper._on_dev_activity`):
on a dev sell of a held token, exit immediately, booked at the entry
price. -/
def onDevActivity (cfg : SniperConfig) (s : SniperState) (mint : String)
    (action : String) : SniperState :=
  if ¬cfg.exit_on_dev_sell then s
  else
    match dlookup s.positions mint with
    | none => s
    | some pos =>
        if action = "sell" then
          sniperExit s pos pos.entry_price ExitReason.dev_sell
        else s

/-- Default strategy configuration (the constructor defaults). -/
def sniperDefaultConfig : SniperConfig := {}

/-- Held position used by the C4 theorems: entered at price 1. -/
def examplePosition : SniperPosition :=
  { mint := "TOK", symbol := "TOK", entry_price := 1, amount_usd := 50,
    amount_tokens := 50, entered_at_ns := 0, score := 70,
    highest_price := 1 }

/-- Strategy state holding only `examplePosition`. -/
def exampleSniperState : SniperState :=
  { positions := [("TOK", examplePosition)] }

/-- C4, counterexample.  After a price update to 1.1 is observed for the
held token (entered at 1), a dev sell books the exit at the entry price
1, not at the last seen price 1.1 as the claim states, even though a
price update has been observed since entry. -/
theorem C4_counterexample :
    (onDevActivity sniperDefaultConfig
        (onPriceUpdate sniperDefaultConfig 0 exampleSniperState "TOK" (11 / 10))
        "TOK" "sell").exit_log =
      [{ mint := "TOK", price := 1, reason := ExitReason.dev_sell }] ∧
    (1 : ℚ) ≠ 11 / 10 := by
  constructor
  · norm_num [onPriceUpdate, onDevActivity, exampleSniperState,
      examplePosition, sniperDefaultConfig, sniperExit, ageSeconds, dgetD,
      ExitCounts.bump]
  · norm_num

/-- C4, amended.  A dev-activity event with action sell for a held token
while `exit_on_dev_sell` is enabled triggers an immediate DEV_SELL exit
booked unconditionally at the entry price (realised PnL relative to
entry is therefore zero), the dev_sell counter increments, a sell intent
for the full token amount is published and the position is removed —
regardless of any price updates observed since entry. -/
theorem C4_amended (cfg : SniperConfig) (s : SniperState) (mint : String)
    (pos : SniperPosition) (hflag : cfg.exit_on_dev_sell = true)
    (hpos : dlookup s.positions mint = some pos) :
    let s' := onDevActivity cfg s mint "sell"
    s'.exit_log = s.exit_log ++
      [{ mint := pos.mint, price := pos.entry_price,
         reason := ExitReason.dev_sell }] ∧
    s'.exits.dev_sell = s.exits.dev_sell + 1 ∧
    s'.orders = s.orders ++
      [{ side := "sell", token := pos.mint, amount := pos.amount_tokens,
         slippage_bps := 500 }] ∧
    dlookup s'.positions pos.mint = none ∧
    s'.pnl = s.pnl := by
  intro s'
  have hs' : s' = sniperExit s pos pos.entry_price ExitReason.dev_sell := by
    show onDevActivity cfg s mint "sell" = _
    rw [onDevActivity, hflag, hpos]
    simp
  rw [hs']
  refine ⟨rfl, rfl, rfl, ?_, by simp [sniperExit]⟩
  simp [sniperExit, dlookup_dpop_self]

/-- C4, witness for the amended theorem at the concrete held position. -/
theorem C4_amended_witness :
    sniperDefaultConfig.exit_on_dev_sell = true ∧
    dlookup exampleSniperState.positions "TOK" = some examplePosition ∧
    (onDevActivity sniperDefaultConfig exampleSniperState "TOK"
        "sell").exits.dev_sell = exampleSniperState.exits.dev_sell + 1 :=
  ⟨rfl, by simp [exampleSniperState],
    (C4_amended sniperDefaultConfig exampleSniperState "TOK" examplePosition
      rfl (by simp [exampleSniperState])).2.1⟩

/-! ## Backtest runner (src/fathom/backtest.py)

A raw input record is a JSON object whose keys may be absent: absent
keys are `none`.  `run` reads `record["mint"]` directly — a missing mint
raises `KeyError`, modelled as `Except.error` — while every other field
is read through `.get` with a default.  The wall clock is an explicit
trace `clock : ℕ → ℤ`, consumed one reading per dispatched event. -/

structure PricePoint where
  timestamp : ℤ := 0
  price : ℚ := 0
  volume_5m : ℚ := 0
  deriving Repr, DecidableEq

structure BTRecord where
  mint : Option String := none
  symbol : Option String := none
  graduated_at : Option ℤ := none
  initial_price_usd : Option ℚ := none
  sol_raised : Option ℚ := none
  holder_count : Option ℕ := none
  creator : Option String := none
  pool_address : Option String := none
  pool_type : Option String := none
  price_history : Option (List PricePoint) := none
  deriving Repr, DecidableEq

structure ParsedRecord where
  mint : String
  symbol : String
  initial_price_usd : ℚ
  sol_raised : ℚ
  holder_count : ℕ
  creator : String
  pool_address : String
  pool_type : String
  price_history : List PricePoint
  deriving Repr, DecidableEq

/-- Field access of `BacktestRunner.run` on one record: `record["mint"]`
raises on a missing mint; all other fields default through `.get`. -/
def parseRecord (r : BTRecord) : Except String ParsedRecord :=
  match r.mint with
  | none => Except.error "KeyError: mint"
  | some mint =>
      Except.ok
        { mint := mint,
          symbol := r.symbol.getD (mint.take 8),
          initial_price_usd := r.initial_price_usd.getD 0,
          sol_raised := r.sol_raised.getD 0,
          holder_count := r.holder_count.getD 0,
          creator := r.creator.getD "",
          pool_address := r.pool_address.getD "",
          pool_type := r.pool_type.getD "pumpswap",
          price_history := r.price_history.getD [] }

/-- Event the runner actually publishes: the repository's
`GraduationEvent` class (adapters/pumpfun/graduation.py:86) carries only
these fields — none of the extended scoring fields `score_graduation`
reads exist on it. -/
structure ReplayGraduationEvent where
  mint : String
  symbol : String
  pool_address : String
  pool_type : String
  sol_raised : ℚ
  holder_count : ℕ
  creator : String
  initial_price_usd : ℚ
  deriving Repr, DecidableEq

/-- GraduationEvent emitted by the runner, built from the record's
fields (backtest.py:108-118). -/
def graduationEventOf (p : ParsedRecord) : ReplayGraduationEvent :=
  { mint := p.mint, symbol := p.symbol, pool_address := p.pool_address,
    pool_type := p.pool_type, sol_raised := p.sol_raised,
    holder_count := p.holder_count, creator := p.creator,
    initial_price_usd := p.initial_price_usd }

/-- Behaviour of `GraduationSniper._on_graduation` on an event the
replay can publish.  The duplicate, capacity and price guards read
fields that exist and run to completion; past them the handler calls
`score_graduation(event)`, whose very first access `event.buys_1h`
raises `AttributeError` because `ReplayGraduationEvent` has no such
attribute — before `_scores.append`, the hard filters, or any entry.
The returned flag records that the handler raised (the exception
propagates to `EventBus.publish`, which swallows it); the strategy
state is unchanged on that path. -/
def onGraduationReplay (cfg : SniperConfig) (s : SniperState)
    (e : ReplayGraduationEvent) : SniperState × Bool :=
  if (dlookup s.positions e.mint).isSome then (s, false)
  else if s.positions.length ≥ cfg.max_positions then
    ({ s with filtered := s.filtered + 1 }, false)
  else if e.initial_price_usd ≤ 0 then
    ({ s with filtered := s.filtered + 1 }, false)
  else (s, true)

structure BacktestState where
  sniper : SniperState := {}
  paper : PaperState
  step : ℕ := 0
  peak_balance : ℚ
  max_drawdown : ℚ := 0
  bus_errors : ℕ := 0
  deriving Repr, DecidableEq

def BacktestState.init (initial_balance : ℚ) : BacktestState :=
  { paper := PaperState.init initial_balance, peak_balance := initial_balance }

/-- Depth-first fill of the order intents a strategy handler published:
each ORDER_SUBMITTED dispatches synchronously to
`PaperAdapter._handle_order` before the outer publish returns. -/
def processIntents (paper : PaperState) (intents : List OrderIntent) :
    PaperState :=
  intents.foldl
    (fun p i => p.sync_fill
      { side := i.side, token := i.token, amount_usd := i.amount_usd,
        amount := i.amount })
    paper

/-- Publish one graduation event: the sniper's SIGNAL handler runs; an
`AttributeError` it raises is counted by the bus and any buy it managed
to publish before raising (never any, since the raise precedes the
entry) fills inline. -/
def btStepGraduation (cfg : SniperConfig) (st : BacktestState)
    (e : ReplayGraduationEvent) : BacktestState :=
  let result := onGraduationReplay cfg st.sniper e
  let s' := result.1
  let newOrders := s'.orders.drop st.sniper.orders.length
  { st with
    sniper := s',
    paper := processIntents st.paper newOrders,
    bus_errors := st.bus_errors + (if result.2 then 1 else 0),
    step := st.step + 1 }

/-- Publish one price update: the strategy's handler runs first (so its
sell fills at the previous last price), then `_track_price` records the
new price. -/
def btStepPrice (cfg : SniperConfig) (clock : ℕ → ℤ) (st : BacktestState)
    (token : String) (price : ℚ) : BacktestState :=
  let s' := onPriceUpdate cfg (clock st.step) st.sniper token price
  let newOrders := s'.orders.drop st.sniper.orders.length
  let paper1 := processIntents st.paper newOrders
  { st with
    sniper := s',
    paper := paper1.track_price token price,
    step := st.step + 1 }

/-- Replay one record: seed the initial price, publish the graduation,
publish its price history in list order skipping non-positive prices,
then update the running equity peak and maximum drawdown. -/
def btProcessRecord (cfg : SniperConfig) (clock : ℕ → ℤ)
    (st : BacktestState) (p : ParsedRecord) : BacktestState :=
  let paper0 :=
    if p.initial_price_usd > 0 then
      st.paper.set_price p.mint p.initial_price_usd
    else st.paper
  let st1 := btStepGraduation cfg { st with paper := paper0 }
    (graduationEventOf p)
  let st2 := p.price_history.foldl
    (fun acc point =>
      if point.price ≤ 0 then acc
      else btStepPrice cfg clock acc p.mint point.price)
    st1
  let current := st2.paper.balance_usd
  let peak := if current > st2.peak_balance then current else st2.peak_balance
  let dd := if peak > 0 then (peak - current) / peak else 0
  { st2 with
    peak_balance := peak,
    max_drawdown := if dd > st2.max_drawdown then dd else st2.max_drawdown }

/-- Insert a record behind every earlier record whose sort key
`record.get("graduated_at", 0)` is not larger. -/
def insertSorted (r : BTRecord) : List BTRecord → List BTRecord
  | [] => [r]
  | x :: t =>
      if x.graduated_at.getD 0 ≤ r.graduated_at.getD 0 then
        x :: insertSorted r t
      else r :: x :: t

/-- Stable sort of the raw records by `graduated_at` ascending.  A stable
sort's output is uniquely determined by the comparator, so this insertion
sort coincides with Python's `sorted(data, key=...)`. -/
def sortRecords (data : List BTRecord) : List BTRecord :=
  data.foldl (fun acc r => insertSorted r acc) []

/-- Replay a full data set (`BacktestRunner.run`): sort the raw records
by `graduated_at` ascending, then process each in order; a record whose
mint is missing raises and aborts the run. -/
def runBacktest (cfg : SniperConfig) (data : List BTRecord) (clock : ℕ → ℤ)
    (initial_balance : ℚ) : Except String BacktestState :=
  (sortRecords data).foldlM
    (fun st r => (parseRecord r).map (btProcessRecord cfg clock st))
    (BacktestState.init initial_balance)

/-- Record whose `mint` key is absent (the claim's bad record). -/
def recordMissingMint : BTRecord := { graduated_at := some 1 }

/-- Well-formed record that sorts after the bad one. -/
def recordGood : BTRecord := { mint := some "BBB", graduated_at := some 2 }

/-- C5, counterexample.  The claim states a record missing the mint is
skipped with a warning and the replay continues without raising.  On the
code, `record["mint"]` raises `KeyError`: the run aborts with the error
and the following well-formed record is never processed. -/
theorem C5_counterexample :
    runBacktest sniperDefaultConfig [recordMissingMint, recordGood]
      (fun _ => 0) 1000 = Except.error "KeyError: mint" := by
  rfl

theorem foldlM_records_ok (cfg : SniperConfig) (clock : ℕ → ℤ)
    (l : List BTRecord) :
    ∀ st : BacktestState, (∀ r ∈ l, r.mint.isSome) →
      ∃ out, l.foldlM
        (fun st r => (parseRecord r).map (btProcessRecord cfg clock st)) st =
          Except.ok out := by
  induction l with
  | nil => intro st _; exact ⟨st, rfl⟩
  | cons r t ih =>
      intro st h
      obtain ⟨m, hm⟩ := Option.isSome_iff_exists.mp (h r (by simp))
      obtain ⟨out, hout⟩ :=
        ih (btProcessRecord cfg clock st
          { mint := m, symbol := (r.symbol).getD (m.take 8),
            initial_price_usd := (r.initial_price_usd).getD 0,
            sol_raised := (r.sol_raised).getD 0,
            holder_count := (r.holder_count).getD 0,
            creator := (r.creator).getD "",
            pool_address := (r.pool_address).getD "",
            pool_type := (r.pool_type).getD "pumpswap",
            price_history := (r.price_history).getD [] })
          (fun g hg => h g (by simp [hg]))
      refine ⟨out, ?_⟩
      rw [List.foldlM_cons]
      simpa [parseRecord, hm, Except.map] using hout

theorem mem_insertSorted (r x : BTRecord) (l : List BTRecord) :
    x ∈ insertSorted r l → x = r ∨ x ∈ l := by
  induction l with
  | nil => simp [insertSorted]
  | cons y t ih =>
      by_cases h : y.graduated_at.getD 0 ≤ r.graduated_at.getD 0
      · simp only [insertSorted, if_pos h, List.mem_cons]
        rintro (rfl | hx)
        · exact Or.inr (by simp)
        · rcases ih hx with h1 | h2
          · exact Or.inl h1
          · exact Or.inr (by simp [h2])
      · simp only [insertSorted, if_neg h, List.mem_cons]
        rintro (rfl | hx)
        · exact Or.inl rfl
        · exact Or.inr hx

theorem mem_sortRecords (data : List BTRecord) (x : BTRecord) :
    x ∈ sortRecords data → x ∈ data := by
  have key : ∀ (l acc : List BTRecord),
      x ∈ l.foldl (fun acc r => insertSorted r acc) acc →
        x ∈ acc ∨ x ∈ l := by
    intro l
    induction l with
    | nil => intro acc h; exact Or.inl h
    | cons r t ih =>
        intro acc h
        rcases ih (insertSorted r acc) h with h1 | h2
        · rcases mem_insertSorted r x acc h1 with rfl | h3
          · exact Or.inr (by simp)
          · exact Or.inl h3
        · exact Or.inr (by simp [h2])
  intro h
  rcases key data [] h with h1 | h2
  · cases h1
  · exact h2

/-- C5, amended.  Only the mint is required: a record missing any other
field is read through `.get` defaults and replayed without a warning, and
when every record carries a mint, `BacktestRunner.run` completes without
raising on any input; a record missing the mint raises `KeyError` and
aborts the whole replay instead of being skipped. -/
theorem C5_amended (cfg : SniperConfig) (data : List BTRecord)
    (clock : ℕ → ℤ) (initial_balance : ℚ)
    (h : ∀ r ∈ data, r.mint.isSome) :
    ∃ out, runBacktest cfg data clock initial_balance = Except.ok out := by
  exact foldlM_records_ok cfg clock (sortRecords data)
    (BacktestState.init initial_balance)
    (fun r hr => h r (mem_sortRecords data r hr))

/-- C5, witness for the amended theorem: a single record carrying only a
mint and a graduation time replays successfully. -/
theorem C5_amended_witness :
    (∀ r ∈ [recordGood], r.mint.isSome) ∧
    ∃ out, runBacktest sniperDefaultConfig [recordGood] (fun _ => 0) 1000 =
      Except.ok out :=
  ⟨by decide, C5_amended sniperDefaultConfig [recordGood] (fun _ => 0) 1000
    (by decide)⟩

/-- Positions and published orders are untouched by the replayed
graduation handler: every branch either returns early or raises inside
`score_graduation` before mutating them. -/
theorem onGraduationReplay_preserves (cfg : SniperConfig) (s : SniperState)
    (e : ReplayGraduationEvent) :
    ((onGraduationReplay cfg s e).1).positions = s.positions ∧
      ((onGraduationReplay cfg s e).1).orders = s.orders := by
  unfold onGraduationReplay
  split_ifs <;> exact ⟨rfl, rfl⟩

theorem btStepGraduation_positions (cfg : SniperConfig) (st : BacktestState)
    (e : ReplayGraduationEvent) :
    (btStepGraduation cfg st e).sniper.positions = st.sniper.positions :=
  (onGraduationReplay_preserves cfg st.sniper e).1

/-- With no held position, a price update leaves the strategy untouched
and only records the latest price: the clock is never read. -/
theorem btStepPrice_of_no_positions (cfg : SniperConfig) (c : ℕ → ℤ)
    (st : BacktestState) (token : String) (price : ℚ)
    (h : st.sniper.positions = []) :
    btStepPrice cfg c st token price =
      { st with
        paper := st.paper.track_price token price,
        step := st.step + 1 } := by
  unfold btStepPrice onPriceUpdate
  rw [h]
  simp [processIntents, List.drop_length]

theorem price_history_foldl_clock_eq (cfg : SniperConfig) (c1 c2 : ℕ → ℤ)
    (mint : String) (points : List PricePoint) :
    ∀ st : BacktestState, st.sniper.positions = [] →
      points.foldl
          (fun acc point =>
            if point.price ≤ 0 then acc
            else btStepPrice cfg c1 acc mint point.price) st =
        points.foldl
          (fun acc point =>
            if point.price ≤ 0 then acc
            else btStepPrice cfg c2 acc mint point.price) st ∧
      (points.foldl
          (fun acc point =>
            if point.price ≤ 0 then acc
            else btStepPrice cfg c1 acc mint point.price) st).sniper.positions
        = [] := by
  induction points with
  | nil => intro st h; exact ⟨rfl, h⟩
  | cons point t ih =>
      intro st h
      rw [List.foldl_cons, List.foldl_cons]
      by_cases hp : point.price ≤ 0
      · rw [if_pos hp, if_pos hp]
        exact ih st h
      · rw [if_neg hp, if_neg hp, btStepPrice_of_no_positions cfg c1 st mint
          point.price h, btStepPrice_of_no_positions cfg c2 st mint
          point.price h]
        exact ih _ h

theorem btProcessRecord_clock_eq (cfg : SniperConfig) (c1 c2 : ℕ → ℤ)
    (st : BacktestState) (p : ParsedRecord)
    (h : st.sniper.positions = []) :
    btProcessRecord cfg c1 st p = btProcessRecord cfg c2 st p ∧
      (btProcessRecord cfg c1 st p).sniper.positions = [] := by
  unfold btProcessRecord
  have h1 : (btStepGraduation cfg
      { st with paper := if p.initial_price_usd > 0 then
          st.paper.set_price p.mint p.initial_price_usd
        else st.paper }
      (graduationEventOf p)).sniper.positions = [] := by
    rw [btStepGraduation_positions]
    exact h
  obtain ⟨heq, hpos⟩ := price_history_foldl_clock_eq cfg c1 c2 p.mint
    p.price_history _ h1
  constructor
  · simp only [btProcessRecord]
    rw [heq]
  · simp only [btProcessRecord]
    exact hpos

theorem foldlM_records_clock_eq (cfg : SniperConfig) (c1 c2 : ℕ → ℤ)
    (l : List BTRecord) :
    ∀ st : BacktestState, st.sniper.positions = [] →
      l.foldlM (fun st r => (parseRecord r).map (btProcessRecord cfg c1 st))
        st =
      l.foldlM (fun st r => (parseRecord r).map (btProcessRecord cfg c2 st))
        st := by
  induction l with
  | nil => intro st _; rfl
  | cons r t ih =>
      intro st h
      rw [List.foldlM_cons, List.foldlM_cons]
      match hp : parseRecord r with
      | Except.error msg => rfl
      | Except.ok p =>
          obtain ⟨heq, hpos⟩ := btProcessRecord_clock_eq cfg c1 c2 st p h
          show t.foldlM
              (fun st r => (parseRecord r).map (btProcessRecord cfg c1 st))
              (btProcessRecord cfg c1 st p) =
            t.foldlM
              (fun st r => (parseRecord r).map (btProcessRecord cfg c2 st))
              (btProcessRecord cfg c2 st p)
          rw [heq]
          exact ih _ (heq ▸ hpos)

/-- C8.  `BacktestRunner.run` is a pure function of its input: its
result does not depend on the wall clock at all, so two runs on the same
input yield identical trades, final balance and exit-reason histogram
(the whole final state of the model is equal).  This holds because the
repository's `GraduationEvent` class carries none of the extended
scoring fields, so on every event the replay publishes `_on_graduation`
raises `AttributeError` inside `score_graduation` â swallowed by the
event bus â before any position is created; with no position ever held,
the wall-clock-reading `Position.age_seconds` timeout path is
unreachable and every observable of the run is determined by the input
alone. -/
theorem C8_backtest_deterministic (cfg : SniperConfig)
    (data : List BTRecord) (initial_balance : ℚ) (c1 c2 : ℕ → ℤ) :
    runBacktest cfg data c1 initial_balance =
      runBacktest cfg data c2 initial_balance := by
  unfold runBacktest
  exact foldlM_records_clock_eq cfg c1 c2 (sortRecords data)
    (BacktestState.init initial_balance) rfl

end Fathom
